import Mathlib

/-!
# Hydroponic ingest handler (`appscript.js`)

A shallow embedding of the Apps Script web-app handler `doPost` and of the
platform services it calls, followed by the properties of the handler.

The handler is four statements long:

1. bind the active sheet of the active spreadsheet,
2. `JSON.parse` the request body,
3. `appendRow` the array `[new Date(), data.temperature, data.humidity,
   data.light, data.water]`,
4. return `ContentService.createTextOutput("Data added successfully")`.

Everything the handler touches outside its own text (the JSON reader, the
clock, the sheet) is made explicit: the reader is an argument of the handler,
the clock and the sheet are fields of the `World` it transforms, and what the
platform does during one invocation (whether it hands out the spreadsheet,
whether it accepts the append, how long it takes) is a `Host` record.
-/

namespace Hydroponic

/-! ## JavaScript values -/

/-- A JavaScript string: its sequence of UTF-16 code units. -/
abbrev JsString := List Nat

/-- UTF-16 code units of one Unicode scalar value. -/
def utf16Char (c : Char) : List Nat :=
  if c.toNat < 0x10000 then [c.toNat]
  else [0xD800 + (c.toNat - 0x10000) / 0x400, 0xDC00 + (c.toNat - 0x10000) % 0x400]

/-- UTF-16 code units of a text. -/
def utf16 (s : String) : JsString :=
  s.toList.flatMap utf16Char

/-- A JavaScript number as `JSON.parse` can produce it: an IEEE 754 binary64
value other than NaN.  A finite value is `mantissa * 2 ^ exponent`, negated
when `negative`, written with an odd `mantissa`; zero is written with
`mantissa = 0` and `exponent = 0` and keeps its sign. -/
inductive JsNumber where
  | finite (negative : Bool) (mantissa : Nat) (exponent : Int)
  | infinity (negative : Bool)
  deriving DecidableEq, Repr

/-- The values `JSON.parse` can return.  An object is carried as its own
properties, in the order JavaScript enumerates them. -/
inductive Json where
  | null
  | bool (b : Bool)
  | number (value : JsNumber)
  | string (s : JsString)
  | array (items : List Json)
  | object (members : List (JsString × Json))

/-- The values that reach a cell of the row: `undefined` (a property that is
not there), the `Date` built by `new Date()` (milliseconds since the epoch),
or a value taken from the parsed body. -/
inductive JsValue where
  | undefined
  | date (ms : Nat)
  | json (j : Json)

/-- The faults that can abort the handler.  None of them is caught by
`doPost`. -/
inductive Fault where
  /-- Thrown by `JSON.parse` on a text that is not JSON. -/
  | syntaxError
  /-- Thrown by a property read on `undefined` or `null`. -/
  | typeError
  /-- Raised by the spreadsheet backend, with the backend's own message. -/
  | backend (message : String)
  deriving DecidableEq, Repr

/-! ## Numbers: from a decimal literal to the nearest binary64 value -/

/-- Move the factors of two of a non-zero `mantissa` into the exponent, at
most `fuel` of them. -/
def oddPart : Nat → Nat → Int → Nat × Int
  | 0, mantissa, exponent => (mantissa, exponent)
  | fuel + 1, mantissa, exponent =>
    if mantissa % 2 = 0 ∧ mantissa ≠ 0 then oddPart fuel (mantissa / 2) (exponent + 1)
    else (mantissa, exponent)

/-- The number of halvings that bring `n` below two, at most `fuel` of them. -/
def halvings : Nat → Nat → Nat
  | 0, _ => 0
  | fuel + 1, n => if n < 2 then 0 else halvings fuel (n / 2) + 1

/-- The floor of the binary logarithm of a positive `n`. -/
def log2Floor (n : Nat) : Nat :=
  halvings n n

/-- Whether `d * 2 ^ l ≤ n`, for an exponent `l` of either sign. -/
def scaledLe (d : Nat) (l : Int) (n : Nat) : Bool :=
  if l < 0 then d ≤ n * 2 ^ (-l).toNat else d * 2 ^ l.toNat ≤ n

/-- The binary64 value nearest to the fraction `n / d` (`d` positive), ties
to the even significand: a significand of 53 bits, of fewer bits below
`2 ^ (-1022)` where the exponent stays at `-1074`, and infinity from
`2 ^ 1024` on. -/
def nearestDouble (negative : Bool) (n d : Nat) : JsNumber :=
  if n = 0 then .finite negative 0 0
  else
    let l : Int := (log2Floor n : Int) - (log2Floor d : Int)
    let floorLog : Int := if scaledLe d l n then l else l - 1
    let e : Int := max (floorLog - 52) (-1074)
    let num : Nat := if e < 0 then n * 2 ^ (-e).toNat else n
    let den : Nat := if e < 0 then d else d * 2 ^ e.toNat
    let q : Nat := num / den
    let r : Nat := num % den
    let m : Nat := if den < 2 * r ∨ (2 * r = den ∧ q % 2 = 1) then q + 1 else q
    if 971 < e ∨ (e = 971 ∧ m = 2 ^ 53) then .infinity negative
    else if m = 0 then .finite negative 0 0
    else
      let odd := oddPart 64 m e
      .finite negative odd.1 odd.2

/-- The number written by a run of decimal digits. -/
def digitsValue (digits : List Char) : Nat :=
  digits.foldl (fun acc c => 10 * acc + (c.toNat - 0x30)) 0

/-- The value of the decimal literal `digits * 10 ^ exp10`, as a binary64. -/
def decimalToDouble (negative : Bool) (digits : Nat) (exp10 : Int) : JsNumber :=
  if exp10 < 0 then nearestDouble negative digits (10 ^ (-exp10).toNat)
  else nearestDouble negative (digits * 10 ^ exp10.toNat) 1

/-! ## Objects: own properties in enumeration order -/

/-- The array index a property name stands for, if it is one: the canonical
decimal writing of an integer below `2 ^ 32 - 1`. -/
def arrayIndex (key : JsString) : Option Nat :=
  match key with
  | [] => none
  | first :: rest =>
    if (first :: rest).all (fun u => decide (0x30 ≤ u ∧ u ≤ 0x39)) ∧
        (first ≠ 0x30 ∨ rest = []) then
      let value := (first :: rest).foldl (fun acc u => 10 * acc + (u - 0x30)) 0
      if value < 2 ^ 32 - 1 then some value else none
    else none

/-- Put a new array-index property `(key, v)`, of index `i`, in its place:
after the array indices below it, before everything else. -/
def insertIndex (i : Nat) (key : JsString) (v : Json) :
    List (JsString × Json) → List (JsString × Json)
  | [] => [(key, v)]
  | (k, x) :: rest =>
    match arrayIndex k with
    | some j => if j < i then (k, x) :: insertIndex i key v rest else (key, v) :: (k, x) :: rest
    | none => (key, v) :: (k, x) :: rest

/-- Overwrite the value of the property `key`, which stays where it is. -/
def overwrite (key : JsString) (v : Json) : List (JsString × Json) → List (JsString × Json)
  | [] => []
  | (k, x) :: rest => if k = key then (k, v) :: rest else (k, x) :: overwrite key v rest

/-- Define the data property `key` with value `v` on an object with the
properties `props`: an existing property keeps its place and takes the new
value; a new array index goes among the array indices, in ascending order;
any other new name goes last. -/
def defineProperty (props : List (JsString × Json)) (member : JsString × Json) :
    List (JsString × Json) :=
  if props.any (fun p => decide (p.1 = member.1)) then overwrite member.1 member.2 props
  else
    match arrayIndex member.1 with
    | some i => insertIndex i member.1 member.2 props
    | none => props ++ [member]

/-- The object built from the members of an object text, defined one after
the other in the order of the text. -/
def objectOf (members : List (JsString × Json)) : Json :=
  .object (members.foldl defineProperty [])

/-! ## `JSON.parse`: a reference reader for the JSON grammar -/

namespace JSON

/-- JSON whitespace: space, tab, line feed, carriage return. -/
def isWs (c : Char) : Bool :=
  c.toNat = 0x20 || c.toNat = 0x09 || c.toNat = 0x0A || c.toNat = 0x0D

/-- Drop leading whitespace. -/
def skipWs : List Char → List Char
  | [] => []
  | c :: cs => if isWs c then skipWs cs else c :: cs

/-- Decimal digit test. -/
def isDigit (c : Char) : Bool :=
  0x30 ≤ c.toNat && c.toNat ≤ 0x39

/-- Split off the longest run of decimal digits. -/
def takeDigits : List Char → List Char × List Char
  | [] => ([], [])
  | c :: cs =>
    if isDigit c then
      let r := takeDigits cs
      (c :: r.1, r.2)
    else ([], c :: cs)

/-- Value of a hexadecimal digit. -/
def hexVal (c : Char) : Option Nat :=
  if 0x30 ≤ c.toNat && c.toNat ≤ 0x39 then some (c.toNat - 0x30)
  else if 0x41 ≤ c.toNat && c.toNat ≤ 0x46 then some (c.toNat - 0x41 + 10)
  else if 0x61 ≤ c.toNat && c.toNat ≤ 0x66 then some (c.toNat - 0x61 + 10)
  else none

/-- The integer part of a number: `0`, or a non-zero digit followed by
digits. -/
def readInt (cs : List Char) : Option (List Char × List Char) :=
  match cs with
  | [] => none
  | c :: rest =>
    if c.toNat = 0x30 then some ([c], rest)
    else if isDigit c then
      let r := takeDigits rest
      some (c :: r.1, r.2)
    else none

/-- The optional fraction of a number: `.` followed by at least one digit.
Returns the digits after the point. -/
def readFrac (cs : List Char) : Option (List Char × List Char) :=
  match cs with
  | '.' :: rest =>
    match takeDigits rest with
    | ([], _) => none
    | (ds, rest2) => some (ds, rest2)
  | _ => some ([], cs)

/-- The optional exponent of a number: `e` or `E`, an optional sign, at least
one digit.  Returns the exponent, zero when there is none. -/
def readExp (cs : List Char) : Option (Int × List Char) :=
  match cs with
  | [] => some (0, [])
  | c :: rest =>
    if c = 'e' || c = 'E' then
      let signed : Bool × List Char :=
        match rest with
        | '+' :: r => (false, r)
        | '-' :: r => (true, r)
        | r => (false, r)
      match takeDigits signed.2 with
      | ([], _) => none
      | (ds, rest2) =>
        some (if signed.1 then -(digitsValue ds : Int) else (digitsValue ds : Int), rest2)
    else some (0, c :: rest)

/-- A JSON number: optional minus, integer part, optional fraction, optional
exponent.  Returns its value and the rest of the text. -/
def readNumber (cs : List Char) : Option (JsNumber × List Char) :=
  let signed : Bool × List Char :=
    match cs with
    | '-' :: r => (true, r)
    | r => (false, r)
  match readInt signed.2 with
  | none => none
  | some (i, r1) =>
    match readFrac r1 with
    | none => none
    | some (f, r2) =>
      match readExp r2 with
      | none => none
      | some (x, r3) =>
        some (decimalToDouble signed.1 (digitsValue (i ++ f)) (x - f.length), r3)

/-- The characters of a JSON string after its opening quote, up to and
including the closing quote.  `acc` holds the code units read so far, last
first. -/
def readChars : List Char → List Nat → Option (JsString × List Char)
  | [], _ => none
  | '"' :: rest, acc => some (acc.reverse, rest)
  | '\\' :: 'u' :: a :: b :: c :: d :: rest, acc =>
    match hexVal a, hexVal b, hexVal c, hexVal d with
    | some x, some y, some z, some w =>
      readChars rest ((x * 4096 + y * 256 + z * 16 + w) :: acc)
    | _, _, _, _ => none
  | '\\' :: e :: rest, acc =>
    if e = '"' then readChars rest (0x22 :: acc)
    else if e = '\\' then readChars rest (0x5C :: acc)
    else if e = '/' then readChars rest (0x2F :: acc)
    else if e = 'b' then readChars rest (0x08 :: acc)
    else if e = 'f' then readChars rest (0x0C :: acc)
    else if e = 'n' then readChars rest (0x0A :: acc)
    else if e = 'r' then readChars rest (0x0D :: acc)
    else if e = 't' then readChars rest (0x09 :: acc)
    else none
  | ['\\'], _ => none
  | c :: rest, acc =>
    if c.toNat < 0x20 then none
    else readChars rest ((utf16Char c).reverse ++ acc)

mutual

/-- One JSON value, leading whitespace allowed.  `fuel` bounds the nesting and
the number of elements still to be read. -/
def readValue : Nat → List Char → Option (Json × List Char)
  | 0, _ => none
  | fuel + 1, cs =>
    match skipWs cs with
    | 'n' :: 'u' :: 'l' :: 'l' :: rest => some (Json.null, rest)
    | 't' :: 'r' :: 'u' :: 'e' :: rest => some (Json.bool true, rest)
    | 'f' :: 'a' :: 'l' :: 's' :: 'e' :: rest => some (Json.bool false, rest)
    | '"' :: rest =>
      match readChars rest [] with
      | none => none
      | some (s, rest2) => some (Json.string s, rest2)
    | '[' :: rest =>
      match skipWs rest with
      | ']' :: rest2 => some (Json.array [], rest2)
      | _ => readElements fuel rest []
    | '{' :: rest =>
      match skipWs rest with
      | '}' :: rest2 => some (Json.object [], rest2)
      | _ => readMembers fuel rest []
    | other =>
      match readNumber other with
      | none => none
      | some (value, rest) => some (Json.number value, rest)

/-- The elements of a non-empty array after `[`, up to and including `]`. -/
def readElements : Nat → List Char → List Json → Option (Json × List Char)
  | 0, _, _ => none
  | fuel + 1, cs, acc =>
    match readValue fuel cs with
    | none => none
    | some (v, rest) =>
      match skipWs rest with
      | ',' :: rest2 => readElements fuel rest2 (v :: acc)
      | ']' :: rest2 => some (Json.array (v :: acc).reverse, rest2)
      | _ => none

/-- The members of a non-empty object after `{`, up to and including `}`. -/
def readMembers : Nat → List Char → List (JsString × Json) → Option (Json × List Char)
  | 0, _, _ => none
  | fuel + 1, cs, acc =>
    match skipWs cs with
    | '"' :: rest =>
      match readChars rest [] with
      | none => none
      | some (k, rest2) =>
        match skipWs rest2 with
        | ':' :: rest3 =>
          match readValue fuel rest3 with
          | none => none
          | some (v, rest4) =>
            match skipWs rest4 with
            | ',' :: rest5 => readMembers fuel rest5 ((k, v) :: acc)
            | '}' :: rest5 => some (objectOf ((k, v) :: acc).reverse, rest5)
            | _ => none
        | _ => none
    | _ => none

end

/-- Reference model of the builtin `JSON.parse`: one JSON value surrounded by
optional whitespace, anything else is a `SyntaxError`. -/
def parse (text : String) : Except Fault Json :=
  match readValue (2 * text.length + 2) text.toList with
  | none => .error .syntaxError
  | some (v, rest) =>
    match skipWs rest with
    | [] => .ok v
    | _ :: _ => .error .syntaxError

end JSON

/-! ## Property reads -/

/-- The value a list of properties holds under `key`.  An object built by
`JSON.parse` has each name once; were a name given twice, the later one is
taken, as a later definition overwrites an earlier one. -/
def lookupLast (key : JsString) : List (JsString × Json) → Option Json
  | [] => none
  | (k, v) :: rest =>
    match lookupLast key rest with
    | some later => some later
    | none => if k = key then some v else none

/-- The four properties the handler reads from the parsed body. -/
inductive Field where
  | temperature
  | humidity
  | light
  | water
  deriving DecidableEq, Repr

/-- The property name of a field. -/
def Field.key : Field → JsString
  | .temperature => utf16 "temperature"
  | .humidity => utf16 "humidity"
  | .light => utf16 "light"
  | .water => utf16 "water"

/-- The property read `data.temperature` (and likewise for the other three
fields).  On `null` the read throws a `TypeError`.  On an object it is the
member of that name, `undefined` when there is none.  A number, a boolean, a
string or an array is read through its builtin prototype, which has no
property of any of the four names, so the read is `undefined`. -/
def getField (data : Json) (f : Field) : Except Fault JsValue :=
  match data with
  | .null => .error .typeError
  | .object members =>
    match lookupLast f.key members with
    | some v => .ok (.json v)
    | none => .ok .undefined
  | _ => .ok .undefined

/-! ## The request, the sheet and the clock -/

/-- The `postData` of a request event; `contents` is the body text. -/
structure PostData where
  contents : String

/-- The event object `e` handed to `doPost`.  `postData` is `undefined` when
the request carries no body. -/
structure Event where
  postData : Option PostData

/-- A row of the sheet, as passed to `appendRow`. -/
abbrev Row := List JsValue

/-- What the handler can observe and change: the clock (milliseconds since the
epoch) and the rows of the active sheet of the active spreadsheet, first row
first. -/
structure World where
  clock : Nat
  rows : List Row

/-- What `SpreadsheetApp.getActiveSpreadsheet().getActiveSheet()` comes to in
one invocation.  `getActiveSpreadsheet()` returns the spreadsheet the script is
bound to, or `null` when it is bound to none, and then `.getActiveSheet()`
is a property read on `null`; either service call can also raise a fault of
its own. -/
inductive Binding where
  /-- The active sheet is handed out. -/
  | bound
  /-- There is no active spreadsheet: `getActiveSpreadsheet()` is `null`. -/
  | absent
  /-- The spreadsheet service raises a fault. -/
  | refused (f : Fault)
  deriving DecidableEq, Repr

/-- What the platform does during one invocation: whether it hands out the
active sheet, how long each service call takes, and whether the backend
refuses the append. -/
structure Host where
  /-- The outcome of binding the active sheet. -/
  binding : Binding
  /-- Time taken to bind the active sheet. -/
  bindLatency : Nat
  /-- Time taken to read `e.postData.contents` and parse it. -/
  parseLatency : Nat
  /-- Time taken by `appendRow`. -/
  appendLatency : Nat
  /-- The fault the backend raises on `appendRow`, if any. -/
  appendFault : Option Fault

/-- Let `ms` milliseconds pass. -/
def World.advance (w : World) (ms : Nat) : World :=
  { w with clock := w.clock + ms }

/-- The expression `new Date()`: the current reading of the clock. -/
def Date.new (w : World) : JsValue :=
  .date w.clock

/-- Modelled from the spec: `Sheet.appendRow` is a service of the spreadsheet
platform, not code of this repository.  "Append the row to the end of the
store"; "an append either fully succeeds or the whole request fails": a
refused append raises the backend's fault and writes nothing, an accepted one
adds the row after the last row. -/
def appendRow (h : Host) (w : World) (rowContents : Row) : Except Fault Unit × World :=
  match h.appendFault with
  | some f => (.error f, w.advance h.appendLatency)
  | none => (.ok (), { clock := w.clock + h.appendLatency, rows := w.rows ++ [rowContents] })

/-- The object returned by `ContentService.createTextOutput`. -/
structure TextOutput where
  content : String
  deriving DecidableEq, Repr

/-- The service call `ContentService.createTextOutput(content)`. -/
def ContentService.createTextOutput (content : String) : TextOutput :=
  { content := content }

/-! ## The handler -/

/-- The array literal `[new Date(), data.temperature, data.humidity,
data.light, data.water]`, its elements evaluated left to right; `now` is the
value of `new Date()`. -/
def rowContents (now : JsValue) (data : Json) : Except Fault Row := do
  let temperature ← getField data .temperature
  let humidity ← getField data .humidity
  let light ← getField data .light
  let water ← getField data .water
  pure [now, temperature, humidity, light, water]

/-- The reading of the clock that `new Date()` observes in an invocation
started in world `w` under host `h`: the two statements before it have run. -/
def clockReading (h : Host) (w : World) : Nat :=
  ((w.advance h.bindLatency).advance h.parseLatency).clock

/-- The handler `doPost(e)`.  `parse` is the builtin `JSON.parse`.  The result
is the response, or the uncaught fault, together with the world the invocation
leaves behind. -/
def doPost (parse : String → Except Fault Json) (h : Host) (e : Event) (w : World) :
    Except Fault TextOutput × World :=
  -- const sheet = SpreadsheetApp.getActiveSpreadsheet().getActiveSheet();
  let w₁ := w.advance h.bindLatency
  match h.binding with
  | .refused f => (.error f, w₁)
  | .absent => (.error .typeError, w₁)
  | .bound =>
    -- const data = JSON.parse(e.postData.contents);
    match e.postData with
    | none => (.error .typeError, w₁)
    | some postData =>
      let w₂ := w₁.advance h.parseLatency
      match parse postData.contents with
      | .error f => (.error f, w₂)
      | .ok data =>
        -- sheet.appendRow([new Date(), data.temperature, data.humidity, data.light, data.water]);
        match rowContents (Date.new w₂) data with
        | .error f => (.error f, w₂)
        | .ok row =>
          match appendRow h w₂ row with
          | (.error f, w₃) => (.error f, w₃)
          | (.ok (), w₃) =>
            -- return ContentService.createTextOutput("Data added successfully");
            (.ok (ContentService.createTextOutput "Data added successfully"), w₃)

/-! ## Sample inputs -/

/-- A sheet with one earlier reading, at some instant. -/
def sampleWorld : World :=
  { clock := 1700000000000
    rows := [[.date 1699999940000, .json (.number (.finite false 21 0)),
              .json (.number (.finite false 41 0)), .json (.number (.finite false 35 3)),
              .json (.number (.finite false 1 0))]] }

/-- An invocation in which the sheet is handed out and the backend accepts
the append. -/
def healthyHost : Host :=
  { binding := .bound, bindLatency := 12, parseLatency := 1, appendLatency := 230,
    appendFault := none }

/-- An invocation in which the backend refuses the append. -/
def failingHost : Host :=
  { binding := .bound, bindLatency := 12, parseLatency := 1, appendLatency := 230,
    appendFault := some (.backend "Service Spreadsheets failed") }

/-- An invocation of a script that is bound to no spreadsheet. -/
def unboundHost : Host :=
  { binding := .absent, bindLatency := 12, parseLatency := 1, appendLatency := 230,
    appendFault := none }

/-- A request with the given body text. -/
def request (body : String) : Event :=
  { postData := some { contents := body } }

/-- The example body of the specification. -/
def sampleBody : String :=
  "\x7b\"temperature\": 21.5, \"humidity\": 40, \"light\": 300, \"water\": 1\x7d"

/-- The number 21.5. -/
def sampleTemperature : Json := .number (.finite false 43 (-1))

/-- The number 40. -/
def sampleHumidity : Json := .number (.finite false 5 3)

/-- The number 300. -/
def sampleLight : Json := .number (.finite false 75 2)

/-- The number 1. -/
def sampleWater : Json := .number (.finite false 1 0)

/-- The object `sampleBody` parses to. -/
def sampleMembers : List (JsString × Json) :=
  [(utf16 "temperature", sampleTemperature), (utf16 "humidity", sampleHumidity),
   (utf16 "light", sampleLight), (utf16 "water", sampleWater)]

/-- What `sampleBody` holds under each name. -/
def sampleValues (name : String) : Option Json :=
  if name = "temperature" then some sampleTemperature
  else if name = "humidity" then some sampleHumidity
  else if name = "light" then some sampleLight
  else if name = "water" then some sampleWater
  else none

/-- A body cut off in the middle of a value. -/
def truncatedBody : String :=
  "\x7b\"temperature\": 21.5, \"humidity\": "

/-- A body that lacks `humidity` and `water`. -/
def sparseBody : String :=
  "\x7b\"light\": 512, \"temperature\": 19\x7d"

/-- The object `sparseBody` parses to: `light` is 512, `temperature` is 19. -/
def sparseMembers : List (JsString × Json) :=
  [(utf16 "light", .number (.finite false 1 9)),
   (utf16 "temperature", .number (.finite false 19 0))]

/-- What `sparseBody` holds under each name. -/
def sparseValues (name : String) : Option Json :=
  if name = "temperature" then some (.number (.finite false 19 0))
  else if name = "light" then some (.number (.finite false 1 9))
  else none

/-- The sample reading written otherwise: its keys in another order, `water`
given twice, the temperature as `2.15e1` and the humidity as `40.0`, and two
keys the handler does not read, one of them a `timestamp`. -/
def shuffledBody : String :=
  "\x7b\"timestamp\": \"1999-12-31T23:59:59Z\", \"water\": 0, \"light\": 300, " ++
  "\"humidity\": 40.0, \"water\": 1, \"device\": [7], \"temperature\": 2.15e1\x7d"

/-- The object `shuffledBody` parses to. -/
def shuffledMembers : List (JsString × Json) :=
  [(utf16 "timestamp", .string (utf16 "1999-12-31T23:59:59Z")),
   (utf16 "water", sampleWater), (utf16 "light", sampleLight),
   (utf16 "humidity", sampleHumidity),
   (utf16 "device", .array [.number (.finite false 7 0)]),
   (utf16 "temperature", sampleTemperature)]

/-- An invocation that starts 10 ms later than `sampleWorld` on another sheet
and is quicker to bind, so that `new Date()` reads the same instant as under
`healthyHost` in `sampleWorld`. -/
def otherWorld : World :=
  { clock := 1700000000010, rows := [] }

/-- A quicker invocation in which the backend accepts the append. -/
def quickHost : Host :=
  { binding := .bound, bindLatency := 2, parseLatency := 1, appendLatency := 95,
    appendFault := none }

/-! ## Auxiliary facts -/

theorem clock_le_clockReading (h : Host) (w : World) : w.clock ≤ clockReading h w := by
  simp only [clockReading, World.advance]
  omega

theorem clockReading_eq (h : Host) (w : World) :
    clockReading h w = w.clock + h.bindLatency + h.parseLatency := by
  simp [clockReading, World.advance]

/-- A name that no member carries is not found. -/
theorem lookupLast_of_absent (key : JsString) (members : List (JsString × Json))
    (habsent : ∀ p ∈ members, p.1 ≠ key) : lookupLast key members = none := by
  induction members with
  | nil => rfl
  | cons p rest ih =>
    obtain ⟨k, v⟩ := p
    have hrest : lookupLast key rest = none :=
      ih (fun q hq => habsent q (List.mem_cons_of_mem _ hq))
    have hk : k ≠ key := habsent (k, v) (List.mem_cons_self _ _)
    simp [lookupLast, hrest, hk]

/-- The member after which the name does not come again is the one found. -/
theorem lookupLast_of_last (key : JsString) (v : Json) (before after : List (JsString × Json))
    (hafter : ∀ p ∈ after, p.1 ≠ key) :
    lookupLast key (before ++ (key, v) :: after) = some v := by
  induction before with
  | nil => simp [lookupLast, lookupLast_of_absent key after hafter]
  | cons p rest ih =>
    obtain ⟨k, x⟩ := p
    simp [lookupLast, ih]

/-- The property read on an object, from what the object holds under the
name of the field. -/
theorem getField_object (members : List (JsString × Json)) (f : Field) (name : String)
    (value : Option Json) (hname : f.key = utf16 name)
    (habsent : value = none → ∀ p ∈ members, p.1 ≠ utf16 name)
    (hpresent : ∀ v, value = some v →
      ∃ before after, members = before ++ (utf16 name, v) :: after ∧
        ∀ p ∈ after, p.1 ≠ utf16 name) :
    getField (.object members) f = .ok (value.elim .undefined .json) := by
  cases value with
  | none =>
    simp [getField, hname, lookupLast_of_absent _ _ (habsent rfl)]
  | some v =>
    obtain ⟨before, after, hsplit, hafter⟩ := hpresent v rfl
    subst hsplit
    simp [getField, hname, lookupLast_of_last _ v before after hafter]

/-- The four cells read from a value that is not `null`. -/
theorem rowContents_of_ne_null (now : JsValue) (data : Json) (hdata : data ≠ Json.null) :
    ∃ t hu l wa,
      getField data .temperature = .ok t ∧ getField data .humidity = .ok hu ∧
      getField data .light = .ok l ∧ getField data .water = .ok wa ∧
      rowContents now data = .ok [now, t, hu, l, wa] := by
  have hget : ∀ f : Field, ∃ c, getField data f = .ok c := by
    intro f
    cases data with
    | null => exact absurd rfl hdata
    | object members =>
      cases hl : lookupLast f.key members with
      | none => exact ⟨.undefined, by simp [getField, hl]⟩
      | some v => exact ⟨.json v, by simp [getField, hl]⟩
    | bool b => exact ⟨_, rfl⟩
    | number lit => exact ⟨_, rfl⟩
    | string s => exact ⟨_, rfl⟩
    | array items => exact ⟨_, rfl⟩
  obtain ⟨t, ht⟩ := hget .temperature
  obtain ⟨hu, hhu⟩ := hget .humidity
  obtain ⟨l, hl⟩ := hget .light
  obtain ⟨wa, hwa⟩ := hget .water
  refine ⟨t, hu, l, wa, ht, hhu, hl, hwa, ?_⟩
  simp [rowContents, ht, hhu, hl, hwa, bind, Except.bind, pure, Except.pure]

/-- Reading any field of `null` throws. -/
theorem rowContents_null (now : JsValue) : rowContents now Json.null = .error .typeError := rfl

/-- The row built from a value whose four field reads are known. -/
theorem rowContents_of_reads (now : JsValue) (data : Json) (t hu l wa : JsValue)
    (ht : getField data .temperature = .ok t) (hhu : getField data .humidity = .ok hu)
    (hl : getField data .light = .ok l) (hwa : getField data .water = .ok wa) :
    rowContents now data = .ok [now, t, hu, l, wa] := by
  simp [rowContents, ht, hhu, hl, hwa, bind, Except.bind, pure, Except.pure]

/-- The row built from an object, from what the object holds under the four
names. -/
theorem rowContents_object (now : JsValue) (members : List (JsString × Json))
    (values : String → Option Json)
    (habsent : ∀ name ∈ ["temperature", "humidity", "light", "water"],
      values name = none → ∀ p ∈ members, p.1 ≠ utf16 name)
    (hpresent : ∀ name ∈ ["temperature", "humidity", "light", "water"],
      ∀ v, values name = some v →
        ∃ before after, members = before ++ (utf16 name, v) :: after ∧
          ∀ p ∈ after, p.1 ≠ utf16 name) :
    rowContents now (.object members) =
      .ok [now, (values "temperature").elim .undefined .json,
        (values "humidity").elim .undefined .json,
        (values "light").elim .undefined .json,
        (values "water").elim .undefined .json] := by
  apply rowContents_of_reads
  · exact getField_object members .temperature "temperature" _ rfl
      (habsent _ (by simp)) (hpresent _ (by simp))
  · exact getField_object members .humidity "humidity" _ rfl
      (habsent _ (by simp)) (hpresent _ (by simp))
  · exact getField_object members .light "light" _ rfl
      (habsent _ (by simp)) (hpresent _ (by simp))
  · exact getField_object members .water "water" _ rfl
      (habsent _ (by simp)) (hpresent _ (by simp))

/-- The handler when the sheet is handed out, the body parses and the row can
be built, and the backend accepts the append. -/
theorem doPost_accepted (parse : String → Except Fault Json) (h : Host) (e : Event) (w : World)
    (body : String) (data : Json) (row : Row)
    (hbound : h.binding = .bound)
    (hbody : e.postData = some { contents := body })
    (hparse : parse body = .ok data)
    (hrow : rowContents (.date (clockReading h w)) data = .ok row)
    (hup : h.appendFault = none) :
    doPost parse h e w =
      (.ok (ContentService.createTextOutput "Data added successfully"),
        { clock := clockReading h w + h.appendLatency, rows := w.rows ++ [row] }) := by
  simp only [clockReading, World.advance, Date.new] at hrow ⊢
  simp [doPost, hbound, hbody, hparse, Date.new, World.advance, hrow, appendRow, hup]

/-- The handler when the sheet is handed out, the body parses and the row can
be built, and the backend refuses the append. -/
theorem doPost_refused (parse : String → Except Fault Json) (h : Host) (e : Event) (w : World)
    (body : String) (data : Json) (row : Row) (f : Fault)
    (hbound : h.binding = .bound)
    (hbody : e.postData = some { contents := body })
    (hparse : parse body = .ok data)
    (hrow : rowContents (.date (clockReading h w)) data = .ok row)
    (hdown : h.appendFault = some f) :
    doPost parse h e w =
      (.error f, { clock := clockReading h w + h.appendLatency, rows := w.rows }) := by
  simp only [clockReading, World.advance, Date.new] at hrow ⊢
  simp [doPost, hbound, hbody, hparse, Date.new, World.advance, hrow, appendRow, hdown]

/-- The handler on a request whose body parses to `null`. -/
theorem doPost_null (parse : String → Except Fault Json) (h : Host) (e : Event) (w : World)
    (body : String)
    (hbound : h.binding = .bound)
    (hbody : e.postData = some { contents := body })
    (hparse : parse body = .ok Json.null) :
    doPost parse h e w = (.error .typeError, { clock := clockReading h w, rows := w.rows }) := by
  simp [doPost, hbound, hbody, hparse, rowContents_null, clockReading, World.advance]

/-- The handler on a request whose body does not parse. -/
theorem doPost_rejected (parse : String → Except Fault Json) (h : Host) (e : Event) (w : World)
    (body : String) (f : Fault)
    (hbound : h.binding = .bound)
    (hbody : e.postData = some { contents := body })
    (hparse : parse body = .error f) :
    doPost parse h e w = (.error f, { clock := clockReading h w, rows := w.rows }) := by
  simp [doPost, hbound, hbody, hparse, clockReading, World.advance]

/-- The handler on a request without a body. -/
theorem doPost_no_body (parse : String → Except Fault Json) (h : Host) (e : Event) (w : World)
    (hbound : h.binding = .bound)
    (hbody : e.postData = none) :
    doPost parse h e w =
      (.error .typeError, { clock := w.clock + h.bindLatency, rows := w.rows }) := by
  simp [doPost, hbound, hbody, World.advance]

/-- The handler when there is no active spreadsheet. -/
theorem doPost_absent (parse : String → Except Fault Json) (h : Host) (e : Event) (w : World)
    (habsent : h.binding = .absent) :
    doPost parse h e w =
      (.error .typeError, { clock := w.clock + h.bindLatency, rows := w.rows }) := by
  simp [doPost, habsent, World.advance]

/-- The handler when the spreadsheet service raises a fault. -/
theorem doPost_service_fault (parse : String → Except Fault Json) (h : Host) (e : Event) (w : World)
    (f : Fault) (hfault : h.binding = .refused f) :
    doPost parse h e w = (.error f, { clock := w.clock + h.bindLatency, rows := w.rows }) := by
  simp [doPost, hfault, World.advance]

/-- Every invocation either fails, in one of six ways, and leaves the rows
alone, or acknowledges and adds one row of five cells after the rows that
were there. -/
theorem doPost_cases (parse : String → Except Fault Json) (h : Host) (e : Event) (w : World) :
    (∃ f, (doPost parse h e w).1 = .error f ∧ (doPost parse h e w).2.rows = w.rows ∧
      (h.binding = .refused f ∨
       (h.binding = .absent ∧ f = .typeError) ∨
       (h.binding = .bound ∧
        ((e.postData = none ∧ f = .typeError) ∨
          ∃ body, e.postData = some { contents := body } ∧
            (parse body = .error f ∨
             (parse body = .ok Json.null ∧ f = .typeError) ∨
             ∃ data, parse body = .ok data ∧ data ≠ Json.null ∧ h.appendFault = some f))))) ∨
    (∃ body data t hu l wa, h.binding = .bound ∧ e.postData = some { contents := body } ∧
      parse body = .ok data ∧ data ≠ Json.null ∧ h.appendFault = none ∧
      (doPost parse h e w).1 = .ok (ContentService.createTextOutput "Data added successfully") ∧
      (doPost parse h e w).2.rows = w.rows ++ [[.date (clockReading h w), t, hu, l, wa]]) := by
  cases hbinding : h.binding with
  | refused f =>
    left
    refine ⟨f, ?_, ?_, Or.inl rfl⟩ <;> rw [doPost_service_fault parse h e w f hbinding]
  | absent =>
    left
    refine ⟨.typeError, ?_, ?_, Or.inr (Or.inl ⟨rfl, rfl⟩)⟩ <;>
      rw [doPost_absent parse h e w hbinding]
  | bound =>
    cases hbody : e.postData with
    | none =>
      left
      refine ⟨.typeError, ?_, ?_, Or.inr (Or.inr ⟨rfl, Or.inl ⟨rfl, rfl⟩⟩)⟩ <;>
        rw [doPost_no_body parse h e w hbinding hbody]
    | some postData =>
      obtain ⟨body⟩ := postData
      cases hparse : parse body with
      | error f =>
        left
        refine ⟨f, ?_, ?_, Or.inr (Or.inr ⟨rfl, Or.inr ⟨body, rfl, Or.inl hparse⟩⟩)⟩ <;>
          rw [doPost_rejected parse h e w body f hbinding hbody hparse]
      | ok data =>
        by_cases hnull : data = Json.null
        · subst hnull
          left
          refine ⟨.typeError, ?_, ?_,
            Or.inr (Or.inr ⟨rfl, Or.inr ⟨body, rfl, Or.inr (Or.inl ⟨hparse, rfl⟩)⟩⟩)⟩ <;>
            rw [doPost_null parse h e w body hbinding hbody hparse]
        · obtain ⟨t, hu, l, wa, -, -, -, -, hrow⟩ :=
            rowContents_of_ne_null (.date (clockReading h w)) data hnull
          cases hfault : h.appendFault with
          | some f =>
            left
            refine ⟨f, ?_, ?_, Or.inr (Or.inr ⟨rfl, Or.inr ⟨body, rfl,
              Or.inr (Or.inr ⟨data, hparse, hnull, rfl⟩)⟩⟩)⟩ <;>
              rw [doPost_refused parse h e w body data _ f hbinding hbody hparse hrow hfault]
          | none =>
            right
            refine ⟨body, data, t, hu, l, wa, rfl, rfl, hparse, hnull, rfl, ?_, ?_⟩ <;>
              rw [doPost_accepted parse h e w body data _ hbinding hbody hparse hrow hfault]

/-! ## Properties of the handler -/

/-- C1: for every sheet, every clock and every request whose body parses to a
JSON object holding `temperature`, `humidity`, `light` and `water`, when the
sheet is handed out and the backend accepts the append the handler answers
with the acknowledgment and the sheet afterwards is the sheet before followed
by the one row `[now, temperature, humidity, light, water]`, where `now` is
the reading of the clock taken by `new Date()`: no earlier than the start of
the call and no later than its return. -/
theorem doPost_appends_reading (parse : String → Except Fault Json) (h : Host) (e : Event)
    (w : World) (body : String) (members : List (JsString × Json)) (t hu l wa : Json)
    (hbound : h.binding = .bound)
    (hbody : e.postData = some { contents := body })
    (hparse : parse body = .ok (.object members))
    (ht : lookupLast Field.temperature.key members = some t)
    (hhu : lookupLast Field.humidity.key members = some hu)
    (hl : lookupLast Field.light.key members = some l)
    (hwa : lookupLast Field.water.key members = some wa)
    (hup : h.appendFault = none) :
    (doPost parse h e w).1 = .ok (ContentService.createTextOutput "Data added successfully") ∧
    (doPost parse h e w).2.rows =
      w.rows ++ [[.date (clockReading h w), .json t, .json hu, .json l, .json wa]] ∧
    w.clock ≤ clockReading h w ∧ clockReading h w ≤ (doPost parse h e w).2.clock := by
  have hrow : rowContents (.date (clockReading h w)) (.object members) =
      .ok [.date (clockReading h w), .json t, .json hu, .json l, .json wa] := by
    simp [rowContents, getField, ht, hhu, hl, hwa, bind, Except.bind, pure, Except.pure]
  rw [doPost_accepted parse h e w body _ _ hbound hbody hparse hrow hup]
  exact ⟨rfl, rfl, clock_le_clockReading h w, Nat.le_add_right _ _⟩

theorem doPost_appends_reading_witness :
    JSON.parse sampleBody = .ok (.object sampleMembers) ∧
    (doPost JSON.parse healthyHost (request sampleBody) sampleWorld).1 =
      .ok (ContentService.createTextOutput "Data added successfully") ∧
    (doPost JSON.parse healthyHost (request sampleBody) sampleWorld).2.rows =
      sampleWorld.rows ++ [[.date 1700000000013, .json (.number (.finite false 43 (-1))),
        .json (.number (.finite false 5 3)), .json (.number (.finite false 75 2)),
        .json (.number (.finite false 1 0))]] ∧
    sampleWorld.clock ≤ 1700000000013 ∧
    1700000000013 ≤ (doPost JSON.parse healthyHost (request sampleBody) sampleWorld).2.clock :=
  ⟨rfl, doPost_appends_reading JSON.parse healthyHost (request sampleBody) sampleWorld sampleBody
    sampleMembers (.number (.finite false 43 (-1))) (.number (.finite false 5 3))
    (.number (.finite false 75 2)) (.number (.finite false 1 0))
    rfl rfl rfl rfl rfl rfl rfl rfl⟩

/-- C2: for every sheet, every host and every request whose body `JSON.parse`
rejects, the handler fails and returns no acknowledgment, and the sheet, its
row count included, is what it was; when the sheet was handed out the fault is
that of `JSON.parse`. -/
theorem doPost_malformed_body (parse : String → Except Fault Json) (h : Host) (e : Event)
    (w : World) (body : String) (f : Fault)
    (hbody : e.postData = some { contents := body })
    (hparse : parse body = .error f) :
    (h.binding = .bound → (doPost parse h e w).1 = .error f) ∧
    (∃ g, (doPost parse h e w).1 = .error g) ∧
    (∀ out, (doPost parse h e w).1 ≠ .ok out) ∧
    (doPost parse h e w).2.rows = w.rows ∧
    (doPost parse h e w).2.rows.length = w.rows.length := by
  cases hbinding : h.binding with
  | bound =>
    rw [doPost_rejected parse h e w body f hbinding hbody hparse]
    exact ⟨fun _ => rfl, ⟨f, rfl⟩, fun out hout => (by cases hout), rfl, rfl⟩
  | absent =>
    rw [doPost_absent parse h e w hbinding]
    exact ⟨fun hb => (by cases hb), ⟨_, rfl⟩, fun out hout => (by cases hout), rfl, rfl⟩
  | refused g =>
    rw [doPost_service_fault parse h e w g hbinding]
    exact ⟨fun hb => (by cases hb), ⟨g, rfl⟩, fun out hout => (by cases hout), rfl, rfl⟩

theorem doPost_malformed_body_witness :
    JSON.parse truncatedBody = .error .syntaxError ∧
    (doPost JSON.parse healthyHost (request truncatedBody) sampleWorld).1 = .error .syntaxError ∧
    (∀ out, (doPost JSON.parse healthyHost (request truncatedBody) sampleWorld).1 ≠ .ok out) ∧
    (doPost JSON.parse healthyHost (request truncatedBody) sampleWorld).2.rows = sampleWorld.rows ∧
    (doPost JSON.parse healthyHost (request truncatedBody) sampleWorld).2.rows.length =
      sampleWorld.rows.length :=
  ⟨rfl,
    (doPost_malformed_body JSON.parse healthyHost (request truncatedBody) sampleWorld
      truncatedBody .syntaxError rfl rfl).1 rfl,
    (doPost_malformed_body JSON.parse healthyHost (request truncatedBody) sampleWorld
      truncatedBody .syntaxError rfl rfl).2.2⟩

/-- C3: for every request whose body parses to a JSON object, whichever of
`temperature`, `humidity`, `light`, `water` it lacks, when the sheet is handed
out and the backend accepts the append the handler answers with the
acknowledgment and appends exactly one row of five cells: the clock reading,
then for each of the four names in this order the value the object holds
under it, or `undefined` when the object has no member of that name.  What the
object holds is given by `values`: `none` for a name that no member carries,
`some v` for a name whose last member has the value `v`. -/
theorem doPost_missing_keys (parse : String → Except Fault Json) (h : Host) (e : Event)
    (w : World) (body : String) (members : List (JsString × Json))
    (values : String → Option Json)
    (hbound : h.binding = .bound)
    (hbody : e.postData = some { contents := body })
    (hparse : parse body = .ok (.object members))
    (habsent : ∀ name ∈ ["temperature", "humidity", "light", "water"],
      values name = none → ∀ p ∈ members, p.1 ≠ utf16 name)
    (hpresent : ∀ name ∈ ["temperature", "humidity", "light", "water"],
      ∀ v, values name = some v →
        ∃ before after, members = before ++ (utf16 name, v) :: after ∧
          ∀ p ∈ after, p.1 ≠ utf16 name)
    (hup : h.appendFault = none) :
    (doPost parse h e w).1 = .ok (ContentService.createTextOutput "Data added successfully") ∧
    (doPost parse h e w).2.rows =
      w.rows ++ [[.date (clockReading h w),
        (values "temperature").elim .undefined .json,
        (values "humidity").elim .undefined .json,
        (values "light").elim .undefined .json,
        (values "water").elim .undefined .json]] := by
  have hrow := rowContents_object (.date (clockReading h w)) members values habsent hpresent
  rw [doPost_accepted parse h e w body _ _ hbound hbody hparse hrow hup]
  exact ⟨rfl, rfl⟩

theorem doPost_missing_keys_witness :
    JSON.parse sparseBody = .ok (.object sparseMembers) ∧
    rowContents (.date 1700000000013) (.object sparseMembers) =
      .ok [.date 1700000000013, .json (.number (.finite false 19 0)), .undefined,
        .json (.number (.finite false 1 9)), .undefined] ∧
    (doPost JSON.parse healthyHost (request sparseBody) sampleWorld).1 =
      .ok (ContentService.createTextOutput "Data added successfully") ∧
    (doPost JSON.parse healthyHost (request sparseBody) sampleWorld).2.rows =
      sampleWorld.rows ++ [[.date 1700000000013, .json (.number (.finite false 19 0)),
        .undefined, .json (.number (.finite false 1 9)), .undefined]] :=
  ⟨rfl, rfl, doPost_missing_keys JSON.parse healthyHost (request sparseBody) sampleWorld sparseBody
    sparseMembers sparseValues rfl rfl rfl
    (by
      intro name hname hnone
      simp only [List.mem_cons, List.mem_singleton, List.not_mem_nil, or_false] at hname
      rcases hname with rfl | rfl | rfl | rfl
      · simp [sparseValues] at hnone
      · decide
      · simp [sparseValues] at hnone
      · decide)
    (by
      intro name hname v hsome
      simp only [List.mem_cons, List.mem_singleton, List.not_mem_nil, or_false] at hname
      rcases hname with rfl | rfl | rfl | rfl
      · simp only [sparseValues, if_true, Option.some.injEq] at hsome
        subst hsome
        exact ⟨[(utf16 "light", .number (.finite false 1 9))], [], rfl, by simp⟩
      · simp [sparseValues] at hsome
      · simp [sparseValues] at hsome
        subst hsome
        exact ⟨[], [(utf16 "temperature", .number (.finite false 19 0))], rfl, by decide⟩
      · simp [sparseValues] at hsome)
    rfl⟩

/-- C4: whenever the handler succeeds its response body is exactly the text
`Data added successfully`; two successful invocations, whatever their bodies,
sheets, clocks and hosts, return equal responses, so the response carries
nothing of the request. -/
theorem doPost_acknowledgment (parse₁ parse₂ : String → Except Fault Json) (h₁ h₂ : Host)
    (e₁ e₂ : Event) (w₁ w₂ : World) (out₁ out₂ : TextOutput)
    (hok₁ : (doPost parse₁ h₁ e₁ w₁).1 = .ok out₁)
    (hok₂ : (doPost parse₂ h₂ e₂ w₂).1 = .ok out₂) :
    out₁.content = "Data added successfully" ∧ out₂.content = "Data added successfully" ∧
    out₁ = out₂ := by
  have key : ∀ (parse : String → Except Fault Json) (h : Host) (e : Event) (w : World)
      (out : TextOutput), (doPost parse h e w).1 = .ok out →
      out = ContentService.createTextOutput "Data added successfully" := by
    intro parse h e w out hok
    rcases doPost_cases parse h e w with
      ⟨f, hf, -, -⟩ | ⟨_, _, _, _, _, _, -, -, -, -, -, hack, -⟩
    · rw [hf] at hok
      cases hok
    · rw [hack] at hok
      cases hok
      rfl
  have e₁ := key parse₁ h₁ e₁ w₁ out₁ hok₁
  have e₂ := key parse₂ h₂ e₂ w₂ out₂ hok₂
  subst e₁ e₂
  exact ⟨rfl, rfl, rfl⟩

theorem doPost_acknowledgment_witness :
    (doPost JSON.parse healthyHost (request sampleBody) sampleWorld).1 =
      .ok { content := "Data added successfully" } ∧
    (doPost JSON.parse quickHost (request "[true, \"x\"]") otherWorld).1 =
      .ok { content := "Data added successfully" } ∧
    (({ content := "Data added successfully" } : TextOutput).content = "Data added successfully" ∧
     ({ content := "Data added successfully" } : TextOutput).content = "Data added successfully" ∧
     ({ content := "Data added successfully" } : TextOutput) =
       { content := "Data added successfully" }) :=
  ⟨rfl, rfl, doPost_acknowledgment JSON.parse JSON.parse healthyHost quickHost
    (request sampleBody) (request "[true, \"x\"]") sampleWorld otherWorld _ _ rfl rfl⟩

/-- C5, as stated, fails: the body `null` is valid JSON, the sheet is handed
out and the backend accepts appends, yet the handler fails with a `TypeError`
and appends nothing. -/
theorem doPost_null_body_fails :
    JSON.parse "null" = .ok Json.null ∧
    healthyHost.binding = .bound ∧
    healthyHost.appendFault = none ∧
    (doPost JSON.parse healthyHost (request "null") sampleWorld).1 = .error .typeError ∧
    (doPost JSON.parse healthyHost (request "null") sampleWorld).2.rows = sampleWorld.rows :=
  ⟨rfl, rfl, rfl, rfl, rfl⟩

/-- C5, amended: for every request whose body parses to a JSON value other
than `null`, when the sheet is handed out and the backend accepts the append
the handler succeeds and appends a row; and a failure of the handler means
that the store failed (the spreadsheet service raised the fault, or there was
no active spreadsheet, or the backend refused the append and the fault is the
backend's), or the request had no body, or the body did not parse (the fault
is that of `JSON.parse`), or it parsed to `null`. -/
theorem doPost_failure_modes (parse : String → Except Fault Json) (h : Host) (e : Event)
    (w : World) :
    (∀ body data, h.binding = .bound → e.postData = some { contents := body } →
      parse body = .ok data → data ≠ Json.null → h.appendFault = none →
      (doPost parse h e w).1 = .ok (ContentService.createTextOutput "Data added successfully") ∧
      ∃ row, (doPost parse h e w).2.rows = w.rows ++ [row]) ∧
    (∀ f, (doPost parse h e w).1 = .error f →
      h.binding = .refused f ∨
      (h.binding = .absent ∧ f = .typeError) ∨
      (h.binding = .bound ∧
        ((e.postData = none ∧ f = .typeError) ∨
          ∃ body, e.postData = some { contents := body } ∧
            (parse body = .error f ∨
             (parse body = .ok Json.null ∧ f = .typeError) ∨
             ∃ data, parse body = .ok data ∧ data ≠ Json.null ∧
               h.appendFault = some f)))) := by
  constructor
  · intro body data hbound hbody hparse hdata hup
    obtain ⟨t, hu, l, wa, -, -, -, -, hrow⟩ :=
      rowContents_of_ne_null (.date (clockReading h w)) data hdata
    rw [doPost_accepted parse h e w body data _ hbound hbody hparse hrow hup]
    exact ⟨rfl, _, rfl⟩
  · intro f hf
    rcases doPost_cases parse h e w with
      ⟨g, hg, -, hmode⟩ | ⟨_, _, _, _, _, _, -, -, -, -, -, hack, -⟩
    · rw [hg] at hf
      cases hf
      exact hmode
    · rw [hack] at hf
      cases hf

theorem doPost_failure_modes_witness :
    JSON.parse "[true, \"x\"]" = .ok (.array [.bool true, .string (utf16 "x")]) ∧
    ((doPost JSON.parse healthyHost (request "[true, \"x\"]") sampleWorld).1 =
        .ok (ContentService.createTextOutput "Data added successfully") ∧
      ∃ row, (doPost JSON.parse healthyHost (request "[true, \"x\"]") sampleWorld).2.rows =
        sampleWorld.rows ++ [row]) ∧
    (doPost JSON.parse unboundHost (request sampleBody) sampleWorld).1 = .error .typeError ∧
    (unboundHost.binding = .refused .typeError ∨
      (unboundHost.binding = .absent ∧ Fault.typeError = .typeError) ∨
      (unboundHost.binding = .bound ∧
        (((request sampleBody).postData = none ∧ Fault.typeError = .typeError) ∨
          ∃ body, (request sampleBody).postData = some { contents := body } ∧
            (JSON.parse body = .error .typeError ∨
             (JSON.parse body = .ok Json.null ∧ Fault.typeError = .typeError) ∨
             ∃ data, JSON.parse body = .ok data ∧ data ≠ Json.null ∧
               unboundHost.appendFault = some .typeError)))) :=
  ⟨rfl, (doPost_failure_modes JSON.parse healthyHost (request "[true, \"x\"]") sampleWorld).1
    "[true, \"x\"]" (.array [.bool true, .string (utf16 "x")]) rfl rfl rfl
    (fun hnull => by cases hnull) rfl,
    rfl,
    (doPost_failure_modes JSON.parse unboundHost (request sampleBody) sampleWorld).2
      .typeError rfl⟩

/-- C6: the handler does not deduplicate.  For every sheet and every body
that parses to a JSON object, two invocations in sequence on requests with
that same body, each with the sheet handed out and the append accepted, both
succeed and leave the sheet two rows longer; the two new rows have the same
four data cells, and the first cell of each is the clock reading taken during
its own invocation. -/
theorem doPost_twice (parse : String → Except Fault Json) (h₁ h₂ : Host) (e₁ e₂ : Event)
    (w : World) (body : String) (members : List (JsString × Json))
    (hbound₁ : h₁.binding = .bound) (hbound₂ : h₂.binding = .bound)
    (hbody₁ : e₁.postData = some { contents := body })
    (hbody₂ : e₂.postData = some { contents := body })
    (hparse : parse body = .ok (.object members))
    (hup₁ : h₁.appendFault = none) (hup₂ : h₂.appendFault = none) :
    ∃ t hu l wa : JsValue,
      (doPost parse h₁ e₁ w).1 =
        .ok (ContentService.createTextOutput "Data added successfully") ∧
      (doPost parse h₂ e₂ (doPost parse h₁ e₁ w).2).1 =
        .ok (ContentService.createTextOutput "Data added successfully") ∧
      (doPost parse h₂ e₂ (doPost parse h₁ e₁ w).2).2.rows =
        w.rows ++ [[.date (clockReading h₁ w), t, hu, l, wa],
                   [.date (clockReading h₂ (doPost parse h₁ e₁ w).2), t, hu, l, wa]] ∧
      (doPost parse h₂ e₂ (doPost parse h₁ e₁ w).2).2.rows.length = w.rows.length + 2 ∧
      w.clock ≤ clockReading h₁ w ∧
      clockReading h₁ w ≤ (doPost parse h₁ e₁ w).2.clock ∧
      (doPost parse h₁ e₁ w).2.clock ≤ clockReading h₂ (doPost parse h₁ e₁ w).2 ∧
      clockReading h₂ (doPost parse h₁ e₁ w).2 ≤
        (doPost parse h₂ e₂ (doPost parse h₁ e₁ w).2).2.clock := by
  have hdata : Json.object members ≠ Json.null := fun hnull => by cases hnull
  obtain ⟨t, hu, l, wa, ht, hhu, hl, hwa, hrow₁⟩ :=
    rowContents_of_ne_null (.date (clockReading h₁ w)) (.object members) hdata
  have hfirst := doPost_accepted parse h₁ e₁ w body _ _ hbound₁ hbody₁ hparse hrow₁ hup₁
  have hrow₂ := rowContents_of_reads
    (.date (clockReading h₂ (doPost parse h₁ e₁ w).2)) (.object members) t hu l wa ht hhu hl hwa
  have hsecond := doPost_accepted parse h₂ e₂ (doPost parse h₁ e₁ w).2 body _ _
    hbound₂ hbody₂ hparse hrow₂ hup₂
  refine ⟨t, hu, l, wa, ?_, ?_, ?_, ?_, clock_le_clockReading h₁ w, ?_,
    clock_le_clockReading h₂ _, ?_⟩
  · rw [hfirst]
  · rw [hsecond]
  · rw [hsecond]
    simp only [hfirst, List.append_assoc, List.singleton_append]
  · rw [hsecond]
    simp only [hfirst, List.length_append, List.length_singleton]
  · rw [hfirst]
    exact Nat.le_add_right _ _
  · rw [hsecond]
    exact Nat.le_add_right _ _

theorem doPost_twice_witness :
    JSON.parse sampleBody = .ok (.object sampleMembers) ∧
    ∃ t hu l wa : JsValue,
      (doPost JSON.parse healthyHost (request sampleBody) sampleWorld).1 =
        .ok (ContentService.createTextOutput "Data added successfully") ∧
      (doPost JSON.parse quickHost (request sampleBody)
        (doPost JSON.parse healthyHost (request sampleBody) sampleWorld).2).1 =
        .ok (ContentService.createTextOutput "Data added successfully") ∧
      (doPost JSON.parse quickHost (request sampleBody)
        (doPost JSON.parse healthyHost (request sampleBody) sampleWorld).2).2.rows =
        sampleWorld.rows ++ [[.date (clockReading healthyHost sampleWorld), t, hu, l, wa],
          [.date (clockReading quickHost
            (doPost JSON.parse healthyHost (request sampleBody) sampleWorld).2), t, hu, l, wa]] ∧
      (doPost JSON.parse quickHost (request sampleBody)
        (doPost JSON.parse healthyHost (request sampleBody) sampleWorld).2).2.rows.length =
        sampleWorld.rows.length + 2 ∧
      sampleWorld.clock ≤ clockReading healthyHost sampleWorld ∧
      clockReading healthyHost sampleWorld ≤
        (doPost JSON.parse healthyHost (request sampleBody) sampleWorld).2.clock ∧
      (doPost JSON.parse healthyHost (request sampleBody) sampleWorld).2.clock ≤
        clockReading quickHost (doPost JSON.parse healthyHost (request sampleBody) sampleWorld).2 ∧
      clockReading quickHost (doPost JSON.parse healthyHost (request sampleBody) sampleWorld).2 ≤
        (doPost JSON.parse quickHost (request sampleBody)
          (doPost JSON.parse healthyHost (request sampleBody) sampleWorld).2).2.clock :=
  ⟨rfl, doPost_twice JSON.parse healthyHost quickHost (request sampleBody) (request sampleBody)
    sampleWorld sampleBody sampleMembers rfl rfl rfl rfl rfl rfl rfl⟩

/-- C7: in every invocation, whatever the body, the rows present before the
call are afterwards still there, unchanged and in the same order, as the
leading rows of the sheet; and in every successful invocation the sheet is one
row longer, the added row coming last and having exactly five cells. -/
theorem doPost_store_invariant (parse : String → Except Fault Json) (h : Host) (e : Event)
    (w : World) :
    w.rows <+: (doPost parse h e w).2.rows ∧
    ∀ out, (doPost parse h e w).1 = .ok out →
      (doPost parse h e w).2.rows.length = w.rows.length + 1 ∧
      ∃ row : Row, row.length = 5 ∧ (doPost parse h e w).2.rows = w.rows ++ [row] := by
  rcases doPost_cases parse h e w with
    ⟨f, hf, hrows, -⟩ | ⟨_, _, t, hu, l, wa, -, -, -, -, -, -, hrows⟩
  · refine ⟨?_, ?_⟩
    · exact ⟨[], by rw [hrows, List.append_nil]⟩
    · intro out hout
      rw [hf] at hout
      cases hout
  · refine ⟨?_, ?_⟩
    · exact ⟨_, hrows.symm⟩
    · intro out _
      rw [hrows]
      exact ⟨by simp, [.date (clockReading h w), t, hu, l, wa], rfl, rfl⟩

theorem doPost_store_invariant_witness :
    (doPost JSON.parse healthyHost (request sampleBody) sampleWorld).1 =
      .ok (ContentService.createTextOutput "Data added successfully") ∧
    sampleWorld.rows <+: (doPost JSON.parse healthyHost (request sampleBody) sampleWorld).2.rows ∧
    (doPost JSON.parse healthyHost (request sampleBody) sampleWorld).2.rows.length =
      sampleWorld.rows.length + 1 ∧
    ∃ row : Row, row.length = 5 ∧
      (doPost JSON.parse healthyHost (request sampleBody) sampleWorld).2.rows =
        sampleWorld.rows ++ [row] :=
  ⟨rfl, (doPost_store_invariant JSON.parse healthyHost (request sampleBody) sampleWorld).1,
    (doPost_store_invariant JSON.parse healthyHost (request sampleBody) sampleWorld).2 _ rfl⟩

/-- C8: the appended row depends only on the clock and on what the body holds
under `temperature`, `humidity`, `light` and `water`.  Two requests whose
bodies parse to objects that agree on these four names (under each name both
hold the value `values` gives, or neither has a member of that name), handled
at the same clock reading with the sheet handed out and the append accepted,
make the handler append the same row, whatever other keys the bodies hold and
in whatever order: the handler's clock reading, never a value of the body,
followed by the four values. -/
theorem doPost_row_depends_only_on_fields (parse : String → Except Fault Json) (h₁ h₂ : Host)
    (e₁ e₂ : Event) (w₁ w₂ : World) (body₁ body₂ : String)
    (members₁ members₂ : List (JsString × Json)) (values : String → Option Json)
    (hbound₁ : h₁.binding = .bound) (hbound₂ : h₂.binding = .bound)
    (hbody₁ : e₁.postData = some { contents := body₁ })
    (hbody₂ : e₂.postData = some { contents := body₂ })
    (hparse₁ : parse body₁ = .ok (.object members₁))
    (hparse₂ : parse body₂ = .ok (.object members₂))
    (habsent₁ : ∀ name ∈ ["temperature", "humidity", "light", "water"],
      values name = none → ∀ p ∈ members₁, p.1 ≠ utf16 name)
    (hpresent₁ : ∀ name ∈ ["temperature", "humidity", "light", "water"],
      ∀ v, values name = some v →
        ∃ before after, members₁ = before ++ (utf16 name, v) :: after ∧
          ∀ p ∈ after, p.1 ≠ utf16 name)
    (habsent₂ : ∀ name ∈ ["temperature", "humidity", "light", "water"],
      values name = none → ∀ p ∈ members₂, p.1 ≠ utf16 name)
    (hpresent₂ : ∀ name ∈ ["temperature", "humidity", "light", "water"],
      ∀ v, values name = some v →
        ∃ before after, members₂ = before ++ (utf16 name, v) :: after ∧
          ∀ p ∈ after, p.1 ≠ utf16 name)
    (hclock : clockReading h₁ w₁ = clockReading h₂ w₂)
    (hup₁ : h₁.appendFault = none) (hup₂ : h₂.appendFault = none) :
    (doPost parse h₁ e₁ w₁).2.rows =
      w₁.rows ++ [[.date (clockReading h₁ w₁),
        (values "temperature").elim .undefined .json,
        (values "humidity").elim .undefined .json,
        (values "light").elim .undefined .json,
        (values "water").elim .undefined .json]] ∧
    (doPost parse h₂ e₂ w₂).2.rows =
      w₂.rows ++ [[.date (clockReading h₁ w₁),
        (values "temperature").elim .undefined .json,
        (values "humidity").elim .undefined .json,
        (values "light").elim .undefined .json,
        (values "water").elim .undefined .json]] := by
  have hrow₁ := rowContents_object (.date (clockReading h₁ w₁)) members₁ values
    habsent₁ hpresent₁
  have hrow₂ := rowContents_object (.date (clockReading h₂ w₂)) members₂ values
    habsent₂ hpresent₂
  rw [doPost_accepted parse h₁ e₁ w₁ body₁ _ _ hbound₁ hbody₁ hparse₁ hrow₁ hup₁,
    doPost_accepted parse h₂ e₂ w₂ body₂ _ _ hbound₂ hbody₂ hparse₂ hrow₂ hup₂, hclock]
  exact ⟨rfl, rfl⟩

set_option maxRecDepth 8192 in
theorem doPost_row_depends_only_on_fields_witness :
    JSON.parse sampleBody = .ok (.object sampleMembers) ∧
    JSON.parse shuffledBody = .ok (.object shuffledMembers) ∧
    clockReading healthyHost sampleWorld = clockReading quickHost otherWorld ∧
    rowContents (.date 1700000000013) (.object shuffledMembers) =
      .ok [.date 1700000000013, .json (.number (.finite false 43 (-1))),
        .json (.number (.finite false 5 3)), .json (.number (.finite false 75 2)),
        .json (.number (.finite false 1 0))] ∧
    (doPost JSON.parse healthyHost (request sampleBody) sampleWorld).2.rows =
      sampleWorld.rows ++ [[.date 1700000000013, .json (.number (.finite false 43 (-1))),
        .json (.number (.finite false 5 3)), .json (.number (.finite false 75 2)),
        .json (.number (.finite false 1 0))]] ∧
    (doPost JSON.parse quickHost (request shuffledBody) otherWorld).2.rows =
      otherWorld.rows ++ [[.date 1700000000013, .json (.number (.finite false 43 (-1))),
        .json (.number (.finite false 5 3)), .json (.number (.finite false 75 2)),
        .json (.number (.finite false 1 0))]] :=
  ⟨rfl, rfl, rfl, rfl, doPost_row_depends_only_on_fields JSON.parse healthyHost quickHost
    (request sampleBody) (request shuffledBody) sampleWorld otherWorld sampleBody shuffledBody
    sampleMembers shuffledMembers sampleValues rfl rfl rfl rfl rfl rfl
    (by
      intro name hname hnone
      simp only [List.mem_cons, List.mem_singleton, List.not_mem_nil, or_false] at hname
      rcases hname with rfl | rfl | rfl | rfl <;> simp [sampleValues] at hnone)
    (by
      intro name hname v hsome
      simp only [List.mem_cons, List.mem_singleton, List.not_mem_nil, or_false] at hname
      rcases hname with rfl | rfl | rfl | rfl <;> simp [sampleValues] at hsome <;> subst hsome
      · exact ⟨sampleMembers.take 0, sampleMembers.drop 1, rfl, by decide⟩
      · exact ⟨sampleMembers.take 1, sampleMembers.drop 2, rfl, by decide⟩
      · exact ⟨sampleMembers.take 2, sampleMembers.drop 3, rfl, by decide⟩
      · exact ⟨sampleMembers.take 3, sampleMembers.drop 4, rfl, by decide⟩)
    (by
      intro name hname hnone
      simp only [List.mem_cons, List.mem_singleton, List.not_mem_nil, or_false] at hname
      rcases hname with rfl | rfl | rfl | rfl <;> simp [sampleValues] at hnone)
    (by
      intro name hname v hsome
      simp only [List.mem_cons, List.mem_singleton, List.not_mem_nil, or_false] at hname
      rcases hname with rfl | rfl | rfl | rfl <;> simp [sampleValues] at hsome <;> subst hsome
      · exact ⟨shuffledMembers.take 5, shuffledMembers.drop 6, rfl, by decide⟩
      · exact ⟨shuffledMembers.take 3, shuffledMembers.drop 4, rfl, by decide⟩
      · exact ⟨shuffledMembers.take 2, shuffledMembers.drop 3, rfl, by decide⟩
      · exact ⟨shuffledMembers.take 1, shuffledMembers.drop 2, rfl, by decide⟩)
    rfl rfl rfl⟩

/-- C9: the handler does not catch a fault of the backend.  For every body
that parses to a JSON object, if the sheet is handed out and the backend then
refuses the append, the handler fails with the backend's own fault, returns no
acknowledgment, and the sheet holds the rows it held, no new row and no part
of one. -/
theorem doPost_append_fault (parse : String → Except Fault Json) (h : Host) (e : Event)
    (w : World) (body : String) (members : List (JsString × Json)) (f : Fault)
    (hbound : h.binding = .bound)
    (hbody : e.postData = some { contents := body })
    (hparse : parse body = .ok (.object members))
    (hdown : h.appendFault = some f) :
    (doPost parse h e w).1 = .error f ∧
    (∀ out, (doPost parse h e w).1 ≠ .ok out) ∧
    (doPost parse h e w).2.rows = w.rows := by
  have hdata : Json.object members ≠ Json.null := fun hnull => by cases hnull
  obtain ⟨t, hu, l, wa, -, -, -, -, hrow⟩ :=
    rowContents_of_ne_null (.date (clockReading h w)) (.object members) hdata
  rw [doPost_refused parse h e w body _ _ f hbound hbody hparse hrow hdown]
  exact ⟨rfl, fun out hout => (by cases hout), rfl⟩

theorem doPost_append_fault_witness :
    JSON.parse sampleBody = .ok (.object sampleMembers) ∧
    failingHost.appendFault = some (.backend "Service Spreadsheets failed") ∧
    (doPost JSON.parse failingHost (request sampleBody) sampleWorld).1 =
      .error (.backend "Service Spreadsheets failed") ∧
    (∀ out, (doPost JSON.parse failingHost (request sampleBody) sampleWorld).1 ≠ .ok out) ∧
    (doPost JSON.parse failingHost (request sampleBody) sampleWorld).2.rows = sampleWorld.rows :=
  ⟨rfl, rfl, doPost_append_fault JSON.parse failingHost (request sampleBody) sampleWorld
    sampleBody sampleMembers (.backend "Service Spreadsheets failed") rfl rfl rfl rfl⟩

/-- C10: on a body that is valid JSON but not an object, the sheet being
handed out.  When the body parses to a number, a string, a boolean or an array
and the backend accepts the append, the handler succeeds, acknowledges and
appends the row `[now, undefined, undefined, undefined, undefined]`; when the
body parses to `null` the property read throws, the handler fails with a
`TypeError` and the sheet is unchanged. -/
theorem doPost_non_object (parse : String → Except Fault Json) (h : Host) (e : Event)
    (w : World) (body : String) (data : Json)
    (hbound : h.binding = .bound)
    (hbody : e.postData = some { contents := body })
    (hparse : parse body = .ok data) :
    (((∃ x, data = .number x) ∨ (∃ s, data = .string s) ∨ (∃ b, data = .bool b) ∨
        (∃ items, data = .array items)) →
      h.appendFault = none →
      (doPost parse h e w).1 = .ok (ContentService.createTextOutput "Data added successfully") ∧
      (doPost parse h e w).2.rows =
        w.rows ++ [[.date (clockReading h w), .undefined, .undefined, .undefined,
          .undefined]]) ∧
    (data = Json.null →
      (doPost parse h e w).1 = .error .typeError ∧ (doPost parse h e w).2.rows = w.rows) := by
  constructor
  · intro hkind hup
    have hrow : rowContents (.date (clockReading h w)) data =
        .ok [.date (clockReading h w), .undefined, .undefined, .undefined, .undefined] := by
      rcases hkind with ⟨_, rfl⟩ | ⟨_, rfl⟩ | ⟨_, rfl⟩ | ⟨_, rfl⟩ <;> rfl
    rw [doPost_accepted parse h e w body data _ hbound hbody hparse hrow hup]
    exact ⟨rfl, rfl⟩
  · intro hnull
    subst hnull
    rw [doPost_null parse h e w body hbound hbody hparse]
    exact ⟨rfl, rfl⟩

theorem doPost_non_object_witness :
    JSON.parse "-12.5e3" = .ok (.number (.finite true 3125 2)) ∧
    JSON.parse " null\n" = .ok Json.null ∧
    ((doPost JSON.parse quickHost (request "-12.5e3") otherWorld).1 =
        .ok (ContentService.createTextOutput "Data added successfully") ∧
      (doPost JSON.parse quickHost (request "-12.5e3") otherWorld).2.rows =
        otherWorld.rows ++ [[.date (clockReading quickHost otherWorld), .undefined, .undefined,
          .undefined, .undefined]]) ∧
    ((doPost JSON.parse quickHost (request " null\n") otherWorld).1 = .error .typeError ∧
      (doPost JSON.parse quickHost (request " null\n") otherWorld).2.rows = otherWorld.rows) :=
  ⟨rfl, rfl,
    (doPost_non_object JSON.parse quickHost (request "-12.5e3") otherWorld "-12.5e3"
      (.number (.finite true 3125 2)) rfl rfl rfl).1 (Or.inl ⟨_, rfl⟩) rfl,
    (doPost_non_object JSON.parse quickHost (request " null\n") otherWorld " null\n"
      Json.null rfl rfl rfl).2 rfl⟩

end Hydroponic
